import Mathlib

/-!
Verification of the BuildNet3D segmented-mesh analysis engine.

This file is a shallow embedding (over `ℚ`) of the geometry core of the
repository:

* `buildnet3d_dataset/post_process_segmentation.py` (`color_quantization`),
* `buildnet3d_dataset/mesh_tools/mesh_utils.py`
  (`triangle_face_normals`, `check_angles`, `find_if_line_and_plane_intersect`),
* `buildnet3d_dataset/mesh_tools/segmented_3D_model.py`
  (`BuildingWall`, `Segmented3DModel` and its private pipeline methods).

Vectorised numpy code over `(n, 3)` float arrays is embedded as Lean
functions over `List Vec3` with exact rational arithmetic; row-wise numpy
operations become `List.map`/`List.zipWith`; `raise` becomes
`Except.error`.  Each definition mirrors one Python function and is kept
executable so that statements can be settled on concrete inputs by `decide`.
-/

/-- A 3-component vector (a row of an `(n, 3)` numpy array): a point,
a normal, or an RGB color. -/
structure Vec3 where
  x : ℚ
  y : ℚ
  z : ℚ
deriving DecidableEq, Repr

namespace Vec3

/-- Componentwise subtraction, `a - b` of numpy rows. -/
def sub (a b : Vec3) : Vec3 := ⟨a.x - b.x, a.y - b.y, a.z - b.z⟩

instance : Sub Vec3 := ⟨sub⟩

/-- Componentwise addition of numpy rows. -/
def add (a b : Vec3) : Vec3 := ⟨a.x + b.x, a.y + b.y, a.z + b.z⟩

instance : Add Vec3 := ⟨add⟩

/-- `np.negative` / multiplication by `-1`. -/
def neg (a : Vec3) : Vec3 := ⟨-a.x, -a.y, -a.z⟩

/-- `np.dot` of two 3-vectors (also `npsumdot` in `mesh_utils.py`). -/
def dot (a b : Vec3) : ℚ := a.x * b.x + a.y * b.y + a.z * b.z

/-- `np.cross` of two 3-vectors. -/
def cross (a b : Vec3) : Vec3 :=
  ⟨a.y * b.z - a.z * b.y, a.z * b.x - a.x * b.z, a.x * b.y - a.y * b.x⟩

/-- The zero vector. -/
def zero : Vec3 := ⟨0, 0, 0⟩

lemma sub_def (a b : Vec3) : a - b = ⟨a.x - b.x, a.y - b.y, a.z - b.z⟩ := rfl

lemma add_def (a b : Vec3) : a + b = ⟨a.x + b.x, a.y + b.y, a.z + b.z⟩ := rfl

end Vec3

/-! ## `post_process_segmentation.color_quantization`

The Python function groups the rows of `arr` by value and replaces each
distinct value by the palette entry minimising the squared Euclidean
distance, the first such entry in palette order
(`mandatory_colors[np.where(distances == np.min(distances))[0][0]]`).
Grouping by distinct value and writing each index list once is
observationally the per-row map applied below.  With an empty palette and a
non-empty `arr`, the first loop iteration evaluates
`mandatory_colors - np.array(pixel_value)`, a broadcast of shapes `(0,)`
and `(3,)`, which raises `ValueError`; this is the embedding's error case.
-/

/-- Squared Euclidean distance between two colors,
`np.sum((mandatory_colors - np.array(pixel_value)) ** 2)` for one entry. -/
def sqDist (a b : Vec3) : ℚ :=
  (a.x - b.x) ^ 2 + (a.y - b.y) ^ 2 + (a.z - b.z) ^ 2

/-- First palette entry at minimal squared distance from `c`
(`np.where(distances == np.min(distances))[0][0]` picks the first index
attaining the minimum).  `none` only for an empty palette. -/
def closestColor : List Vec3 → Vec3 → Option Vec3
  | [], _ => none
  | p :: ps, c =>
    match closestColor ps c with
    | none => some p
    | some q => if sqDist c p ≤ sqDist c q then some p else some q

/-- `post_process_segmentation.color_quantization`.  Replaces every color of
`arr` by its closest entry of `mandatory_colors`; raises (here:
`Except.error`) on a non-empty input with an empty palette. -/
def color_quantization (arr : List Vec3) (mandatory_colors : List Vec3) :
    Except Unit (List Vec3) :=
  match arr with
  | [] => Except.ok []
  | _ :: _ =>
    match mandatory_colors with
    | [] => Except.error ()
    | _ :: _ =>
      Except.ok (arr.map (fun c => (closestColor mandatory_colors c).getD c))

lemma closestColor_isSome_of_ne_nil (palette : List Vec3) (c : Vec3)
    (h : palette ≠ []) : (closestColor palette c).isSome := by
  cases palette with
  | nil => exact absurd rfl h
  | cons p ps =>
    simp only [closestColor]
    cases closestColor ps c with
    | none => rfl
    | some q =>
      by_cases hle : sqDist c p ≤ sqDist c q <;> simp [hle]

lemma closestColor_spec (palette : List Vec3) (c q : Vec3)
    (h : closestColor palette c = some q) :
    q ∈ palette ∧ ∀ r ∈ palette, sqDist c q ≤ sqDist c r := by
  induction palette generalizing q with
  | nil => simp [closestColor] at h
  | cons p ps ih =>
    simp only [closestColor] at h
    cases hps : closestColor ps c with
    | none =>
      rw [hps] at h
      cases ps with
      | nil =>
        simp only [Option.some.injEq] at h
        subst h
        refine ⟨List.mem_cons_self _ _, ?_⟩
        intro r hr
        rcases List.mem_cons.mp hr with h1 | h1
        · subst h1; exact le_refl _
        · simp at h1
      | cons p' ps' =>
        exfalso
        have := closestColor_isSome_of_ne_nil (p' :: ps') c (by simp)
        rw [hps] at this
        simp at this
    | some q' =>
      rw [hps] at h
      obtain ⟨hq'mem, hq'min⟩ := ih q' hps
      by_cases hle : sqDist c p ≤ sqDist c q'
      · simp only [hle, if_true, Option.some.injEq] at h
        subst h
        refine ⟨List.mem_cons_self _ _, ?_⟩
        intro r hr
        rcases List.mem_cons.mp hr with h1 | h1
        · subst h1; exact le_refl _
        · exact le_trans hle (hq'min r h1)
      · simp only [hle, if_false, Option.some.injEq] at h
        subst h
        refine ⟨List.mem_cons_of_mem _ hq'mem, ?_⟩
        intro r hr
        rcases List.mem_cons.mp hr with h1 | h1
        · subst h1; exact le_of_not_le hle
        · exact hq'min r h1

lemma sqDist_eq_zero_iff (a b : Vec3) : sqDist a b = 0 ↔ a = b := by
  unfold sqDist
  constructor
  · intro h
    have hx : (a.x - b.x) ^ 2 = 0 := by nlinarith [sq_nonneg (a.x - b.x), sq_nonneg (a.y - b.y), sq_nonneg (a.z - b.z)]
    have hy : (a.y - b.y) ^ 2 = 0 := by nlinarith [sq_nonneg (a.x - b.x), sq_nonneg (a.y - b.y), sq_nonneg (a.z - b.z)]
    have hz : (a.z - b.z) ^ 2 = 0 := by nlinarith [sq_nonneg (a.x - b.x), sq_nonneg (a.y - b.y), sq_nonneg (a.z - b.z)]
    have hx' : a.x = b.x := by nlinarith [hx]
    have hy' : a.y = b.y := by nlinarith [hy]
    have hz' : a.z = b.z := by nlinarith [hz]
    cases a; cases b
    simp_all
  · intro h; subst h; ring

/-- A color already in the palette is its own closest palette entry:
its squared distance to itself is `0`, minimal, and ties are broken in
palette order among entries that must then all equal it. -/
lemma closestColor_self (palette : List Vec3) (c : Vec3) (hc : c ∈ palette) :
    closestColor palette c = some c := by
  have hne : palette ≠ [] := by
    intro h; subst h; simp at hc
  obtain ⟨q, hq⟩ := Option.isSome_iff_exists.mp
    (closestColor_isSome_of_ne_nil palette c hne)
  obtain ⟨hmem, hmin⟩ := closestColor_spec palette c q hq
  have h0 : sqDist c q ≤ 0 := by
    have := hmin c hc
    simpa [sqDist] using this
  have h0' : sqDist c q = 0 := le_antisymm h0 (by unfold sqDist; positivity)
  have : c = q := (sqDist_eq_zero_iff c q).mp h0'
  rw [hq, this]

/-! ## `mesh_utils.check_angles` and `mesh_utils.triangle_face_normals`

`check_angles` computes `cos θ = dot / (|a| |b|)` per face and vertex, clamps
cosines numerically at `±1` (`np.isclose`) to keep `arccos` in domain, and
flags `arccos(cos θ) > π/2`.  Since `arccos` is strictly decreasing and the
magnitudes are non-negative, `arccos(cos θ) > π/2 ↔ cos θ < 0 ↔ dot < 0`;
the clamping only moves cosines within `(0, 1]` or `[-1, 0)` and never
across `0`.  When either vector is zero, numpy produces `cos θ = nan`,
`arccos(nan) = nan`, and `nan > π/2` is `False` — which again coincides with
`dot < 0` (the dot product with a zero vector is `0`).  So the flag is
embedded exactly as `dot < 0`. -/

/-- One row of `check_angles`: for a face normal and the face's three vertex
normals, whether each vertex normal is more than 90° from the face normal. -/
def check_angles_row (fn : Vec3) (vn : Vec3 × Vec3 × Vec3) :
    Bool × Bool × Bool :=
  (decide (Vec3.dot fn vn.1 < 0),
   decide (Vec3.dot fn vn.2.1 < 0),
   decide (Vec3.dot fn vn.2.2 < 0))

/-- `mesh_utils.check_angles` over a batch of faces; the `(n, 3)` boolean
result array becomes a list of boolean triples. -/
def check_angles (face_normals : List Vec3)
    (vertex_normals : List (Vec3 × Vec3 × Vec3)) :
    List (Bool × Bool × Bool) :=
  List.zipWith check_angles_row face_normals vertex_normals

/-- `np.any(angle_check, axis=1)` for one row. -/
def anyRow (r : Bool × Bool × Bool) : Bool := r.1 || r.2.1 || r.2.2

/-- `mesh_utils.triangle_face_normals`.  Computes `cross(AB, AC)` per face,
flips the sign of every face normal flagged by `check_angles`, and raises
(here: `Except.error`) if any face is still flagged after the single flip.
The error payload is the count the Python `RuntimeError` message reports:
`np.sum(np.any(angle_check, axis=1))`, i.e. the number of faces flagged by
the FIRST check (before the flip), not the number still flagged after it. -/
def triangle_face_normals (AB AC A_normal B_normal C_normal : List Vec3) :
    Except ℕ (List Vec3) :=
  let face_normals := List.zipWith Vec3.cross AB AC
  let vertex_normals :=
    List.zipWith (fun a bc => (a, bc)) A_normal
      (List.zipWith (fun b c => (b, c)) B_normal C_normal)
  let angle_check := check_angles face_normals vertex_normals
  if (angle_check.map anyRow).any id then
    let mask := angle_check.map anyRow
    let flipped :=
      List.zipWith (fun fn m => if m then Vec3.neg fn else fn)
        face_normals mask
    let angle_check_2 := check_angles flipped vertex_normals
    if (angle_check_2.map anyRow).any id then
      Except.error (mask.count true)
    else
      Except.ok flipped
  else
    Except.ok face_normals

/-! ## `mesh_utils.find_if_line_and_plane_intersect`

The plane is spanned by the three rows of `plane_points`; its normal is
`cross(AB, AC)` and the plane offset is `d = -dot(normal, plane_points[0])`.
NOTE (claim C4): when the normal is the zero vector the Python source
evaluates the bare expression `RuntimeError("plane points provided create
line or point.")` WITHOUT `raise`, so no error is thrown and the function
continues with the zero normal; the embedding therefore has no error case.

An edge is "on plane" when `np.isclose(vector @ normal, 0, atol=1e-6)`,
i.e. `|dot(p1 - p0, normal)| ≤ 1e-6` (the relative tolerance term vanishes
against the reference value `0`).  The source takes an early return when
every edge is on-plane; otherwise the remaining rows are overwritten with
the `0 ≤ t ≤ 1` test.  Both paths are kept below. -/

/-- Membership of a point in the wall's axis-aligned domain box
(`np.all((v >= domain[:, 0]) & (v <= domain[:, 1]), axis=1)`);
`domain.1` is the min corner, `domain.2` the max corner. -/
def inDomain (domain : Vec3 × Vec3) (p : Vec3) : Bool :=
  decide (domain.1.x ≤ p.x ∧ p.x ≤ domain.2.x ∧
          domain.1.y ≤ p.y ∧ p.y ≤ domain.2.y ∧
          domain.1.z ≤ p.z ∧ p.z ≤ domain.2.z)

/-- `np.isclose(dot, 0, atol=1e-6)` of the edge direction with the plane
normal. -/
def vectorOnPlane (normal p0 p1 : Vec3) : Bool :=
  decide (|Vec3.dot (p1 - p0) normal| ≤ 1 / 1000000)

/-- The plane normal `find_if_line_and_plane_intersect` computes from its
three plane points: `np.cross(AB, AC)` with `AB = plane_points[1] -
plane_points[0]` and `AC = plane_points[2] - plane_points[0]`. -/
def planeNormal (plane_points : Vec3 × Vec3 × Vec3) : Vec3 :=
  Vec3.cross (plane_points.2.1 - plane_points.1)
    (plane_points.2.2 - plane_points.1)

/-- The plane offset `d = -np.dot(normal, plane_points[0, :])`. -/
def planeD (plane_points : Vec3 × Vec3 × Vec3) : ℚ :=
  -(Vec3.dot (planeNormal plane_points) plane_points.1)

/-- `mesh_utils.find_if_line_and_plane_intersect`.  `vertices_1` and
`vertices_2` are the per-edge endpoint arrays, `plane_points` the three
plane points, `domain` the wall's bounding box. -/
def find_if_line_and_plane_intersect (vertices_1 vertices_2 : List Vec3)
    (plane_points : Vec3 × Vec3 × Vec3) (domain : Vec3 × Vec3) :
    List Bool :=
  let normal := planeNormal plane_points
  -- source: `RuntimeError(...)` is constructed but not raised when
  -- `np.all(normal == 0)`; execution falls through
  let d := planeD plane_points
  let vector_on_plane := List.zipWith (vectorOnPlane normal) vertices_1 vertices_2
  let line_on_plane_in_domain :=
    List.zipWith
      (fun p0 p1 =>
        vectorOnPlane normal p0 p1 && inDomain domain p0 && inDomain domain p1)
      vertices_1 vertices_2
  if vector_on_plane.count true = vector_on_plane.length then
    line_on_plane_in_domain
  else
    -- rows with `vector_on_plane` keep the on-plane result, the others are
    -- overwritten with the parametric test
    -- `t = -(dot(n, p0) + d) / dot(n, p1 - p0)`, `0 ≤ t ≤ 1`
    List.zipWith
      (fun p0 p1 =>
        if vectorOnPlane normal p0 p1 then
          vectorOnPlane normal p0 p1 && inDomain domain p0 && inDomain domain p1
        else
          let t := -(Vec3.dot normal p0 + d) / Vec3.dot normal (p1 - p0)
          decide (0 ≤ t ∧ t ≤ 1))
      vertices_1 vertices_2

/-- Modelled from the spec's wording of the membership rules (claim C6):
if the edge direction is parallel to the plane (`|dot| ≤ 1e-6`) the edge is
intersecting iff both endpoints lie in the domain box; otherwise iff the
solved parameter `t = -(dot(n, p0) + d) / dot(n, p1 - p0)` lies in
`[0, 1]`. -/
def lineIntersectsPlaneSpec (normal : Vec3) (d : ℚ) (domain : Vec3 × Vec3)
    (p0 p1 : Vec3) : Bool :=
  if |Vec3.dot (p1 - p0) normal| ≤ 1 / 1000000 then
    inDomain domain p0 && inDomain domain p1
  else
    decide (0 ≤ -(Vec3.dot normal p0 + d) / Vec3.dot normal (p1 - p0) ∧
            -(Vec3.dot normal p0 + d) / Vec3.dot normal (p1 - p0) ≤ 1)

lemma list_map_self {α : Type} (f : α → α) (l : List α)
    (h : ∀ a ∈ l, f a = a) : l.map f = l := by
  induction l with
  | nil => rfl
  | cons a as ih =>
    simp only [List.map_cons, h a (List.mem_cons_self a as),
      ih (fun b hb => h b (List.mem_cons_of_mem a hb))]

/-- C7: running `color_quantization` on a non-empty color array with an
empty palette fails (numpy broadcast `ValueError` in the source, the
`Except.error` case of the embedding). -/
theorem C7_empty_palette_error (arr : List Vec3) (h : arr ≠ []) :
    color_quantization arr [] = Except.error () := by
  cases arr with
  | nil => exact absurd rfl h
  | cons a as => rfl

theorem C7_empty_palette_error_witness :
    color_quantization [Vec3.zero] [] = Except.error () :=
  C7_empty_palette_error [Vec3.zero] (by simp)

/-- C8: quantization is idempotent — with a non-empty palette, an array
whose every color already equals some palette entry is returned
unchanged. -/
theorem C8_quantization_idempotent (arr palette : List Vec3)
    (hp : palette ≠ []) (h : ∀ c ∈ arr, c ∈ palette) :
    color_quantization arr palette = Except.ok arr := by
  cases arr with
  | nil => rfl
  | cons a as =>
    cases palette with
    | nil => exact absurd rfl hp
    | cons p ps =>
      simp only [color_quantization]
      rw [list_map_self]
      intro c hc
      rw [closestColor_self (p :: ps) c (h c hc)]
      rfl

theorem C8_quantization_idempotent_witness :
    color_quantization [⟨1, 2, 3⟩] [⟨1, 2, 3⟩, ⟨0, 0, 0⟩] =
      Except.ok [⟨1, 2, 3⟩] :=
  C8_quantization_idempotent [⟨1, 2, 3⟩] [⟨1, 2, 3⟩, ⟨0, 0, 0⟩]
    (by simp) (by decide)

/-- C3: the source flips each flagged face normal once and raises if any
face is still flagged after the flip, but the count it reports is
`np.sum(np.any(angle_check, axis=1))` — the PRE-flip flag count — while its
own error message ("... were not able to be corrected ...") and the spec
promise the number of faces that remain unresolved AFTER the flip.  On this
two-face batch the call raises with count 2, although only one face (the
first) is still flagged after the flip: re-checking the flipped normals
`(0,0,-1), (0,0,-1)` against the same vertex normals flags exactly one
face. -/
theorem C3_normal_resolution_count_bug :
    triangle_face_normals
        [⟨1, 0, 0⟩, ⟨1, 0, 0⟩] [⟨0, 1, 0⟩, ⟨0, 1, 0⟩]
        [⟨0, 0, 1⟩, ⟨0, 0, -1⟩] [⟨0, 0, -1⟩, ⟨0, 0, -1⟩]
        [⟨0, 0, 1⟩, ⟨0, 0, -1⟩] = Except.error 2 ∧
    ((check_angles [⟨0, 0, -1⟩, ⟨0, 0, -1⟩]
        [(⟨0, 0, 1⟩, ⟨0, 0, -1⟩, ⟨0, 0, 1⟩),
         (⟨0, 0, -1⟩, ⟨0, 0, -1⟩, ⟨0, 0, -1⟩)]).map anyRow).count true = 1 := by
  constructor
  · norm_num [triangle_face_normals, check_angles, check_angles_row, anyRow,
      Vec3.cross, Vec3.dot, Vec3.neg, List.count_cons]
  · norm_num [check_angles, check_angles_row, anyRow, Vec3.dot,
      List.count_cons]

/-- C4: with collinear plane points the cross product is zero, but the
source only evaluates `RuntimeError(...)` without `raise`, so the call does
NOT fail: it proceeds with the zero normal, classifies every edge as
parallel (`dot = 0`), and returns the domain-membership results — here
`[true]` for an in-domain edge. -/
theorem C4_degenerate_plane_no_error :
    find_if_line_and_plane_intersect [⟨0, 0, 0⟩] [⟨0, 1, 0⟩]
      (⟨0, 0, 0⟩, ⟨1, 0, 0⟩, ⟨2, 0, 0⟩) (⟨0, 0, 0⟩, ⟨5, 5, 5⟩) = [true] := by
  norm_num [find_if_line_and_plane_intersect, planeNormal, planeD,
    vectorOnPlane, inDomain, Vec3.cross, Vec3.dot, Vec3.sub_def]

lemma c6_row_eq (normal : Vec3) (d : ℚ) (dom : Vec3 × Vec3) (p0 p1 : Vec3) :
    (if vectorOnPlane normal p0 p1 then
        vectorOnPlane normal p0 p1 && inDomain dom p0 && inDomain dom p1
      else
        decide (0 ≤ -(Vec3.dot normal p0 + d) / Vec3.dot normal (p1 - p0) ∧
                -(Vec3.dot normal p0 + d) / Vec3.dot normal (p1 - p0) ≤ 1)) =
      lineIntersectsPlaneSpec normal d dom p0 p1 := by
  simp only [lineIntersectsPlaneSpec, vectorOnPlane, decide_eq_true_eq]
  by_cases h : |Vec3.dot (p1 - p0) normal| ≤ 1 / 1000000
  · rw [if_pos h, if_pos h, decide_eq_true h]
    simp
  · rw [if_neg h, if_neg h]

lemma c6_onplane_branch (normal : Vec3) (d : ℚ) (dom : Vec3 × Vec3) :
    ∀ v1s v2s : List Vec3,
      (List.zipWith (vectorOnPlane normal) v1s v2s).count true =
        (List.zipWith (vectorOnPlane normal) v1s v2s).length →
      List.zipWith
          (fun p0 p1 =>
            vectorOnPlane normal p0 p1 && inDomain dom p0 && inDomain dom p1)
          v1s v2s =
        List.zipWith (lineIntersectsPlaneSpec normal d dom) v1s v2s := by
  intro v1s
  induction v1s with
  | nil => intro v2s _; simp
  | cons p0 t1 ih =>
    intro v2s h
    cases v2s with
    | nil => simp
    | cons p1 t2 =>
      simp only [List.zipWith_cons_cons, List.count_cons, List.length_cons] at h ⊢
      by_cases hv : vectorOnPlane normal p0 p1 = true
      · rw [hv] at h
        simp only [beq_self_eq_true, if_pos, reduceIte] at h
        have htail : (List.zipWith (vectorOnPlane normal) t1 t2).count true =
            (List.zipWith (vectorOnPlane normal) t1 t2).length := by omega
        have hv' : |Vec3.dot (p1 - p0) normal| ≤ 1 / 1000000 := by
          simpa [vectorOnPlane] using hv
        have hspec : lineIntersectsPlaneSpec normal d dom p0 p1 =
            (inDomain dom p0 && inDomain dom p1) := by
          simp only [lineIntersectsPlaneSpec]
          rw [if_pos hv']
        rw [ih t2 htail, hspec, hv]
        simp
      · exfalso
        have hle : (List.zipWith (vectorOnPlane normal) t1 t2).count true ≤
            (List.zipWith (vectorOnPlane normal) t1 t2).length :=
          List.count_le_length _ _
        have hf : vectorOnPlane normal p0 p1 = false := by
          revert hv
          cases vectorOnPlane normal p0 p1 <;> simp
        rw [hf] at h
        have hb : (false == true) = false := by rfl
        rw [hb, if_neg (by simp)] at h
        omega

/-- C6: the membership rules of `find_if_line_and_plane_intersect` — an
edge whose direction is parallel to the probe plane (`|dot| ≤ 1e-6`) is
flagged iff both endpoints lie in the wall's domain box, every other edge
iff the solved parameter `t = -(dot(n, p0) + d) / dot(n, p1 - p0)` lies in
`[0, 1]`; the early-return over all-parallel batches does not change the
per-edge results. -/
theorem C6_line_plane_membership (vertices_1 vertices_2 : List Vec3)
    (plane_points : Vec3 × Vec3 × Vec3) (domain : Vec3 × Vec3) :
    find_if_line_and_plane_intersect vertices_1 vertices_2 plane_points
        domain =
      List.zipWith
        (lineIntersectsPlaneSpec (planeNormal plane_points)
          (planeD plane_points) domain)
        vertices_1 vertices_2 := by
  unfold find_if_line_and_plane_intersect
  dsimp only
  by_cases h : (List.zipWith
      (vectorOnPlane (planeNormal plane_points)) vertices_1 vertices_2).count
        true =
      (List.zipWith
        (vectorOnPlane (planeNormal plane_points)) vertices_1 vertices_2).length
  · rw [if_pos]
    · exact c6_onplane_branch (planeNormal plane_points) (planeD plane_points)
        domain vertices_1 vertices_2 h
    · exact h
  · rw [if_neg]
    · have hfun :
          (fun p0 p1 =>
            if vectorOnPlane (planeNormal plane_points) p0 p1 then
              vectorOnPlane (planeNormal plane_points) p0 p1 &&
                inDomain domain p0 && inDomain domain p1
            else
              decide
                (0 ≤ -(Vec3.dot (planeNormal plane_points) p0 +
                        planeD plane_points) /
                      Vec3.dot (planeNormal plane_points) (p1 - p0) ∧
                  -(Vec3.dot (planeNormal plane_points) p0 +
                        planeD plane_points) /
                      Vec3.dot (planeNormal plane_points) (p1 - p0) ≤ 1)) =
            lineIntersectsPlaneSpec (planeNormal plane_points)
              (planeD plane_points) domain := by
        funext p0 p1
        exact c6_row_eq (planeNormal plane_points) (planeD plane_points)
          domain p0 p1
      rw [hfun]
    · exact h

/-! ## `Segmented3DModel._get_segmented_mesh_info` (face assembly)

The source left-joins the per-vertex columns of `self._points` onto the
triangle table by vertex id, producing per-face columns `seg_class_v1`,
`seg_class_v2`, `seg_class_v3`, then checks
`(seg_class_v1 == seg_class_v2) & (seg_class_v2 == seg_class_v3)` for every
row; if all rows agree the common class becomes the face's `seg_class` and
the three columns are dropped, otherwise the whole call raises
`NotImplementedError`.  Only the three class columns take part in the
consistency check, so the embedding keeps just those; the remaining joined
vertex attributes ride along unchanged in the source. -/

/-- A row of the joined face table: the semantic classes of the face's
three vertices. -/
structure JoinedFace where
  seg_class_v1 : String
  seg_class_v2 : String
  seg_class_v3 : String
deriving DecidableEq, Repr

/-- `Segmented3DModel._get_segmented_mesh_info`: all faces must have three
agreeing vertex classes, and each face is then paired with its common
class; otherwise the call raises (`Except.error`). -/
def get_segmented_mesh_info (mesh_df : List JoinedFace) :
    Except Unit (List (JoinedFace × String)) :=
  if mesh_df.all (fun f => f.seg_class_v1 == f.seg_class_v2 &&
      (f.seg_class_v2 == f.seg_class_v3)) then
    Except.ok (mesh_df.map (fun f => (f, f.seg_class_v1)))
  else
    Except.error ()

/-- C2: mixed-class faces are a hard, fail-fast error — if any face's three
vertex classes are not all equal, `_get_segmented_mesh_info` raises
(`InconsistentClassificationError` in the spec's vocabulary,
`NotImplementedError` in the source) and no partial result is returned;
when all faces agree, every face is assigned its vertices' common class. -/
theorem C2_mixed_class_fail_fast (mesh_df : List JoinedFace) :
    ((∃ f ∈ mesh_df, f.seg_class_v1 ≠ f.seg_class_v2 ∨
        f.seg_class_v2 ≠ f.seg_class_v3) →
      get_segmented_mesh_info mesh_df = Except.error ()) ∧
    (∀ out, get_segmented_mesh_info mesh_df = Except.ok out →
      ∀ fr ∈ out, fr.2 = fr.1.seg_class_v1 ∧
        fr.1.seg_class_v1 = fr.1.seg_class_v2 ∧
        fr.1.seg_class_v2 = fr.1.seg_class_v3) := by
  unfold get_segmented_mesh_info
  by_cases hall : mesh_df.all (fun f => f.seg_class_v1 == f.seg_class_v2 &&
      (f.seg_class_v2 == f.seg_class_v3)) = true
  · rw [if_pos hall]
    rw [List.all_eq_true] at hall
    constructor
    · intro ⟨f, hf, hne⟩
      have := hall f hf
      simp only [Bool.and_eq_true, beq_iff_eq] at this
      rcases hne with hne | hne
      · exact absurd this.1 hne
      · exact absurd this.2 hne
    · intro out hout fr hfr
      cases hout
      obtain ⟨f, hf, rfl⟩ := List.mem_map.mp hfr
      have := hall f hf
      simp only [Bool.and_eq_true, beq_iff_eq] at this
      exact ⟨rfl, this.1, this.2⟩
  · rw [if_neg hall]
    exact ⟨fun _ => rfl, fun out hout => by cases hout⟩

theorem C2_mixed_class_fail_fast_witness :
    get_segmented_mesh_info [⟨"wall", "window", "wall"⟩] = Except.error () :=
  (C2_mixed_class_fail_fast [⟨"wall", "window", "wall"⟩]).1
    ⟨⟨"wall", "window", "wall"⟩, by simp, Or.inl (by simp)⟩

/-! ## `Segmented3DModel._fix_vertex_colors` and `_assign_classes`

`_fix_vertex_colors` runs `color_quantization` on the `red`/`green`/`blue`
columns of `self._points` against the segmentation map's `RGB` values and
writes the quantized colors back.  `_assign_classes` initialises the
`seg_class` column to `""` and then, for each `(class, RGB)` entry of the
segmentation map in order, overwrites `seg_class` with the class name on
every vertex whose color equals that entry's `RGB` exactly — so on
duplicate `RGB`s the LAST matching entry wins.  Only the color columns and
the class column take part; position/normal columns ride along. -/

/-- A row of the vertex table `self._points`: its (possibly quantized)
color and its assigned semantic class. -/
structure VPoint where
  color : Vec3
  seg_class : String
deriving DecidableEq, Repr

/-- `Segmented3DModel._fix_vertex_colors`: quantize each vertex color
against the segmentation map's palette and write the result back. -/
def fix_vertex_colors (points : List VPoint)
    (seg_map : List (String × Vec3)) : Except Unit (List VPoint) :=
  (color_quantization (points.map (fun p => p.color))
      (seg_map.map (fun e => e.2))).map
    (fun fixed => List.zipWith (fun p c => { p with color := c }) points fixed)

/-- The per-vertex class fold of `_assign_classes`: entries are processed
in map order and a later matching entry overwrites an earlier one. -/
def assignClassFold (c : Vec3) (seg_map : List (String × Vec3))
    (init : String) : String :=
  seg_map.foldl (fun acc e => if c = e.2 then e.1 else acc) init

/-- `Segmented3DModel._assign_classes`: label every vertex with the class
of the last segmentation-map entry whose `RGB` equals the vertex color
exactly; vertices matching no entry keep the initial `""`. -/
def assign_classes (points : List VPoint)
    (seg_map : List (String × Vec3)) : List VPoint :=
  points.map (fun p =>
    { p with seg_class := assignClassFold p.color seg_map "" })

lemma assignClassFold_no_match (seg_map : List (String × Vec3)) (c : Vec3)
    (init : String) (h : ∀ e ∈ seg_map, e.2 ≠ c) :
    assignClassFold c seg_map init = init := by
  induction seg_map generalizing init with
  | nil => rfl
  | cons e es ih =>
    unfold assignClassFold at ih ⊢
    simp only [List.foldl_cons]
    rw [if_neg (fun hc => h e (List.mem_cons_self e es) hc.symm)]
    exact ih init (fun e' he' => h e' (List.mem_cons_of_mem e he'))

lemma assignClassFold_match (seg_map : List (String × Vec3)) (c : Vec3)
    (init : String) (h : ∃ e ∈ seg_map, e.2 = c) :
    ∃ e ∈ seg_map, e.2 = c ∧ assignClassFold c seg_map init = e.1 := by
  induction seg_map generalizing init with
  | nil => obtain ⟨e, he, _⟩ := h; simp at he
  | cons e es ih =>
    unfold assignClassFold at ih ⊢
    simp only [List.foldl_cons]
    by_cases hes : ∃ e' ∈ es, e'.2 = c
    · obtain ⟨e', he', hc', hfold⟩ :=
        ih (if c = e.2 then e.1 else init) hes
      exact ⟨e', List.mem_cons_of_mem e he', hc', hfold⟩
    · push_neg at hes
      obtain ⟨e₀, he₀, hc₀⟩ := h
      rcases List.mem_cons.mp he₀ with rfl | he₀'
      · refine ⟨e₀, List.mem_cons_self e₀ es, hc₀, ?_⟩
        rw [if_pos hc₀.symm]
        exact assignClassFold_no_match es c e₀.1 hes
      · exact absurd hc₀ (hes e₀ he₀')

lemma getD_closestColor_mem (palette : List Vec3) (c : Vec3)
    (h : palette ≠ []) : (closestColor palette c).getD c ∈ palette := by
  obtain ⟨q, hq⟩ := Option.isSome_iff_exists.mp
    (closestColor_isSome_of_ne_nil palette c h)
  rw [hq]
  exact (closestColor_spec palette c q hq).1

lemma mem_zipWith_color (points : List VPoint) (cols : List Vec3)
    (P : Vec3 → Prop) (hP : ∀ c ∈ cols, P c) :
    ∀ q ∈ List.zipWith (fun p c => { p with color := c }) points cols,
      P q.color := by
  induction points generalizing cols with
  | nil => intro q hq; simp at hq
  | cons p ps ih =>
    intro q hq
    cases cols with
    | nil => simp at hq
    | cons c cs =>
      rw [List.zipWith_cons_cons] at hq
      rcases List.mem_cons.mp hq with rfl | hq'
      · exact hP c (List.mem_cons_self c cs)
      · exact ih cs (fun c' hc' => hP c' (List.mem_cons_of_mem c hc')) q hq'

/-- C9: with a non-empty segmentation map (of non-empty class names),
quantization snaps every vertex color to an exact palette color, so the
subsequent exact-match class assignment labels every vertex — the
"vertices matching no entry stay unlabeled" case of `_assign_classes` is
unreachable in the constructor pipeline. -/
theorem C9_every_vertex_labeled (points : List VPoint)
    (seg_map : List (String × Vec3)) (hmap : seg_map ≠ [])
    (hnames : ∀ e ∈ seg_map, e.1 ≠ "") :
    ∃ fixed, fix_vertex_colors points seg_map = Except.ok fixed ∧
      ∀ p ∈ assign_classes fixed seg_map, p.seg_class ≠ "" := by
  have hpal : seg_map.map (fun e => e.2) ≠ [] := by
    intro hc
    exact hmap (List.map_eq_nil_iff.mp hc)
  cases hpts : points.map (fun p => p.color) with
  | nil =>
    have hnil : points = [] := List.map_eq_nil_iff.mp hpts
    subst hnil
    refine ⟨[], ?_, ?_⟩
    · simp [fix_vertex_colors, color_quantization, Except.map]
    · intro p hp
      simp [assign_classes] at hp
  | cons c cs =>
    cases hsm : seg_map.map (fun e => e.2) with
    | nil => exact absurd hsm hpal
    | cons m ms =>
      refine ⟨List.zipWith (fun p c => { p with color := c }) points
        ((points.map (fun p => p.color)).map
          (fun c => (closestColor (seg_map.map (fun e => e.2)) c).getD c)),
        ?_, ?_⟩
      · unfold fix_vertex_colors
        rw [hpts, hsm]
        rfl
      · intro p hp
        unfold assign_classes at hp
        obtain ⟨q, hq, rfl⟩ := List.mem_map.mp hp
        have hcolor : q.color ∈ seg_map.map (fun e => e.2) := by
          refine mem_zipWith_color points _ (fun v => v ∈ seg_map.map (fun e => e.2)) ?_ q hq
          intro v hv
          obtain ⟨v', _, rfl⟩ := List.mem_map.mp hv
          exact getD_closestColor_mem _ v' hpal
        obtain ⟨e, he, _⟩ := List.mem_map.mp hcolor
        obtain ⟨e', he', _, hfold⟩ := assignClassFold_match seg_map q.color ""
          ⟨e, he, by assumption⟩
        simp only [hfold]
        exact hnames e' he'

theorem C9_every_vertex_labeled_witness :
    ∃ fixed,
      fix_vertex_colors [⟨⟨7, 7, 7⟩, ""⟩] [("wall", ⟨0, 0, 0⟩)] =
        Except.ok fixed ∧
      ∀ p ∈ assign_classes fixed [("wall", ⟨0, 0, 0⟩)], p.seg_class ≠ "" :=
  C9_every_vertex_labeled [⟨⟨7, 7, 7⟩, ""⟩] [("wall", ⟨0, 0, 0⟩)]
    (by simp) (by intro e he; simp only [List.mem_singleton] at he; subst he; decide)

/-! ## The mesh face table and `_get_connected_meshes_list`

A row of `Segmented3DModel._mesh_df` after `_get_segmented_mesh_info` and
`_add_triangle_face_normals`: three vertex ids with their positions, the
face's semantic class, its unit normal (`face_normal_{x,y,z}`) and the
pre-normalization magnitude `face_normal_magnitude`.  The remaining columns
(vertex normals and colors) play no role in the wall/window analysis.

`_get_connected_meshes_list` builds an undirected graph whose edge list is
the concatenation of the three edge columns (all `(v1, v2)` rows, then all
`(v2, v3)` rows, then all `(v3, v1)` rows) and returns its connected
components (`networkx.connected_components`).  The embedding computes the
components' node sets by folding the same edge list over a disjoint
component list, merging every component touching an endpoint of the new
edge; the claims only use the properties proved below (components are
pairwise node-disjoint and jointly contain both endpoints of every edge),
which hold for any correct connected-component computation. -/

/-- A row of the segmented mesh table. -/
structure MeshFace where
  id_v1 : ℕ
  id_v2 : ℕ
  id_v3 : ℕ
  p_v1 : Vec3
  p_v2 : Vec3
  p_v3 : Vec3
  seg_class : String
  face_normal : Vec3
  face_normal_magnitude : ℚ
deriving DecidableEq, Repr

/-- The edge list of `_get_connected_meshes_list`'s `graph_df`:
the `(id_v1, id_v2)` rows, then the `(id_v2, id_v3)` rows, then the
`(id_v3, id_v1)` rows. -/
def meshEdgeList (mesh_df_slice : List MeshFace) : List (ℕ × ℕ) :=
  mesh_df_slice.map (fun m => (m.id_v1, m.id_v2)) ++
    mesh_df_slice.map (fun m => (m.id_v2, m.id_v3)) ++
    mesh_df_slice.map (fun m => (m.id_v3, m.id_v1))

/-- Merge step of the connected-component computation: all components
touching either endpoint of edge `e` fuse with `e`'s endpoints into one
component; the others are untouched. -/
def addEdge (comps : List (List ℕ)) (e : ℕ × ℕ) : List (List ℕ) :=
  let parts := comps.partition (fun c => decide (e.1 ∈ c) || decide (e.2 ∈ c))
  (e.1 :: e.2 :: parts.1.flatten) :: parts.2

/-- `Segmented3DModel._get_connected_meshes_list`: the connected components
(as node-id lists) of the graph whose edges are the three edges of every
face of the slice. -/
def get_connected_meshes_list (mesh_df_slice : List MeshFace) :
    List (List ℕ) :=
  (meshEdgeList mesh_df_slice).foldl addEdge []

/-- The component lists are pairwise node-disjoint. -/
def NodeDisjoint (comps : List (List ℕ)) : Prop :=
  comps.Pairwise (fun c c' => ∀ x, x ∈ c → x ∉ c')

lemma NodeDisjoint.mem_unique {comps : List (List ℕ)} (h : NodeDisjoint comps)
    {c c' : List ℕ} {x : ℕ} (hc : c ∈ comps) (hc' : c' ∈ comps)
    (hx : x ∈ c) (hx' : x ∈ c') : c = c' := by
  induction comps with
  | nil => simp at hc
  | cons a l ih =>
    rcases List.pairwise_cons.mp h with ⟨ha, hl⟩
    rcases List.mem_cons.mp hc with rfl | hc₁
    · rcases List.mem_cons.mp hc' with rfl | hc₁'
      · rfl
      · exact absurd hx' (ha c' hc₁' x hx)
    · rcases List.mem_cons.mp hc' with rfl | hc₁'
      · exact absurd hx' fun hx'' => ha c hc₁ x hx'' hx
      · exact ih hl hc₁ hc₁'

lemma addEdge_disjoint (comps : List (List ℕ)) (e : ℕ × ℕ)
    (h : NodeDisjoint comps) : NodeDisjoint (addEdge comps e) := by
  unfold addEdge NodeDisjoint
  rw [List.partition_eq_filter_filter]
  dsimp only
  refine List.pairwise_cons.mpr ⟨?_, ?_⟩
  · intro c' hc' x hx hx'
    have hpc' : ¬ (e.1 ∈ c' ∨ e.2 ∈ c') := by
      have h2 := (List.mem_filter.mp hc').2
      simp only [Function.comp_apply, Bool.not_eq_true', Bool.or_eq_false_iff,
        decide_eq_false_iff_not] at h2
      exact fun hor => hor.elim h2.1 h2.2
    rcases List.mem_cons.mp hx with rfl | hx₁
    · exact hpc' (Or.inl hx')
    rcases List.mem_cons.mp hx₁ with rfl | hx₂
    · exact hpc' (Or.inr hx')
    obtain ⟨t, ht, hxt⟩ := List.mem_flatten.mp hx₂
    have htmem : t ∈ comps := List.mem_of_mem_filter ht
    have hc'mem : c' ∈ comps := List.mem_of_mem_filter hc'
    have hne : t ≠ c' := by
      intro hteq
      have hpt := (List.mem_filter.mp ht).2
      simp only [Bool.or_eq_true, decide_eq_true_eq] at hpt
      exact hpc' (hteq ▸ hpt)
    exact hne (h.mem_unique htmem hc'mem hxt hx')
  · exact h.sublist (List.filter_sublist comps)

lemma addEdge_mono (comps : List (List ℕ)) (e : ℕ × ℕ) (c : List ℕ)
    (hc : c ∈ comps) : ∃ c' ∈ addEdge comps e, ∀ x ∈ c, x ∈ c' := by
  unfold addEdge
  rw [List.partition_eq_filter_filter]
  dsimp only
  by_cases hp : (fun c => decide (e.1 ∈ c) || decide (e.2 ∈ c)) c = true
  · refine ⟨_, List.mem_cons_self _ _, ?_⟩
    intro x hx
    exact List.mem_cons_of_mem _ (List.mem_cons_of_mem _
      (List.mem_flatten.mpr ⟨c, List.mem_filter.mpr ⟨hc, hp⟩, hx⟩))
  · refine ⟨c, List.mem_cons_of_mem _ ?_, fun x hx => hx⟩
    exact List.mem_filter.mpr ⟨hc, by simpa using hp⟩

lemma addEdge_covers (comps : List (List ℕ)) (e : ℕ × ℕ) :
    ∃ c ∈ addEdge comps e, e.1 ∈ c ∧ e.2 ∈ c := by
  unfold addEdge
  rw [List.partition_eq_filter_filter]
  dsimp only
  exact ⟨_, List.mem_cons_self _ _,
    List.mem_cons_self _ _, List.mem_cons_of_mem _ (List.mem_cons_self _ _)⟩

lemma foldl_addEdge_spec (es : List (ℕ × ℕ)) :
    ∀ comps : List (List ℕ), NodeDisjoint comps →
      NodeDisjoint (es.foldl addEdge comps) ∧
      (∀ c ∈ comps, ∃ c' ∈ es.foldl addEdge comps, ∀ x ∈ c, x ∈ c') ∧
      (∀ e ∈ es, ∃ c ∈ es.foldl addEdge comps, e.1 ∈ c ∧ e.2 ∈ c) := by
  induction es with
  | nil =>
    intro comps h
    exact ⟨h, fun c hc => ⟨c, hc, fun x hx => hx⟩, by simp⟩
  | cons e es ih =>
    intro comps h
    rw [List.foldl_cons]
    obtain ⟨ihdisj, ihmono, ihcover⟩ :=
      ih (addEdge comps e) (addEdge_disjoint comps e h)
    refine ⟨ihdisj, ?_, ?_⟩
    · intro c hc
      obtain ⟨c₁, hc₁, hsub₁⟩ := addEdge_mono comps e c hc
      obtain ⟨c', hc', hsub'⟩ := ihmono c₁ hc₁
      exact ⟨c', hc', fun x hx => hsub' x (hsub₁ x hx)⟩
    · intro e' he'
      rcases List.mem_cons.mp he' with rfl | he₁
      · obtain ⟨c₁, hc₁, h1, h2⟩ := addEdge_covers comps e'
        obtain ⟨c', hc', hsub'⟩ := ihmono c₁ hc₁
        exact ⟨c', hc', hsub' _ h1, hsub' _ h2⟩
      · exact ihcover e' he₁

lemma get_connected_meshes_list_disjoint (mesh_df_slice : List MeshFace) :
    NodeDisjoint (get_connected_meshes_list mesh_df_slice) :=
  (foldl_addEdge_spec (meshEdgeList mesh_df_slice) [] (by simp [NodeDisjoint])).1

lemma get_connected_meshes_list_covers (mesh_df_slice : List MeshFace) :
    ∀ e ∈ meshEdgeList mesh_df_slice,
      ∃ c ∈ get_connected_meshes_list mesh_df_slice, e.1 ∈ c ∧ e.2 ∈ c :=
  (foldl_addEdge_spec (meshEdgeList mesh_df_slice) [] (by simp [NodeDisjoint])).2.2

/-- Each face's three vertices land in a single connected component:
its edges `(v1, v2)` and `(v2, v3)` are covered, and disjointness glues the
two components at `v2`. -/
lemma face_vertices_in_component (mesh_df_slice : List MeshFace)
    (f : MeshFace) (hf : f ∈ mesh_df_slice) :
    ∃ c ∈ get_connected_meshes_list mesh_df_slice,
      f.id_v1 ∈ c ∧ f.id_v2 ∈ c ∧ f.id_v3 ∈ c := by
  have he12 : (f.id_v1, f.id_v2) ∈ meshEdgeList mesh_df_slice := by
    unfold meshEdgeList
    exact List.mem_append_left _ (List.mem_append_left _
      (List.mem_map.mpr ⟨f, hf, rfl⟩))
  have he23 : (f.id_v2, f.id_v3) ∈ meshEdgeList mesh_df_slice := by
    unfold meshEdgeList
    exact List.mem_append_left _ (List.mem_append_right _
      (List.mem_map.mpr ⟨f, hf, rfl⟩))
  obtain ⟨c, hc, h1, h2⟩ :=
    get_connected_meshes_list_covers mesh_df_slice _ he12
  obtain ⟨c', hc', h2', h3⟩ :=
    get_connected_meshes_list_covers mesh_df_slice _ he23
  have : c = c' :=
    (get_connected_meshes_list_disjoint mesh_df_slice).mem_unique hc hc' h2 h2'
  subst this
  exact ⟨c, hc, h1, h2', h3⟩

/-! ## `BuildingWall` and `Segmented3DModel._get_building_walls`

`BuildingWall.__init__` gathers the three vertex blocks of its face slice
(`drop_duplicates` does not affect the min/max extents), takes the
per-axis min/max as `domain`, the midpoint `np.mean(domain, axis=1)` as
`center`, the first row's `face_normal_{x,y,z}` as `direction`, and
`face_normal_magnitude.sum() / 2` as `area`.  The constructor's
single-direction `RuntimeError` guard is omitted: every call site in
`_get_building_walls` passes a slice of one exact-normal group, so the
guard never fires there.

`_get_building_walls` filters `seg_class == "wall"` faces whose unit
`face_normal_z` is neither `1` nor `-1`, groups them by the exact
`(face_normal_x, face_normal_y, face_normal_z)` triple, and per group
either wraps the whole group in one `BuildingWall` (a single connected
component) or, per connected component, wraps the faces whose three vertex
ids all belong to that component.  The traversal order of `groupby` keys
(pandas sorts them) does not affect any claim here; the embedding keeps
first-appearance order of the normals. -/

/-- The min of a list of rationals (`np.min` over one axis); `0` only for
the empty list, on which the numpy call would fail. -/
def listMin (l : List ℚ) : ℚ :=
  match l with
  | [] => 0
  | x :: xs => xs.foldl min x

/-- The max of a list of rationals (`np.max` over one axis). -/
def listMax (l : List ℚ) : ℚ :=
  match l with
  | [] => 0
  | x :: xs => xs.foldl max x

/-- The gathered vertex positions of a wall slice: the `v1` block, then
the `v2` block, then the `v3` block. -/
def gatheredVertices (wall_mesh_df : List MeshFace) : List Vec3 :=
  wall_mesh_df.map (fun m => m.p_v1) ++ wall_mesh_df.map (fun m => m.p_v2) ++
    wall_mesh_df.map (fun m => m.p_v3)

/-- A building wall (the `BuildingWall` class): its face slice and the
derived `domain` (min corner, max corner), `center`, `direction` and
`area`. -/
structure BuildingWall where
  mesh_df : List MeshFace
  domain : Vec3 × Vec3
  center : Vec3
  direction : Vec3
  area : ℚ
deriving DecidableEq, Repr

/-- `BuildingWall.__init__` on a face slice. -/
def mkBuildingWall (wall_mesh_df : List MeshFace) : BuildingWall :=
  let pts := gatheredVertices wall_mesh_df
  let mn : Vec3 :=
    ⟨listMin (pts.map (fun p => p.x)), listMin (pts.map (fun p => p.y)),
      listMin (pts.map (fun p => p.z))⟩
  let mx : Vec3 :=
    ⟨listMax (pts.map (fun p => p.x)), listMax (pts.map (fun p => p.y)),
      listMax (pts.map (fun p => p.z))⟩
  { mesh_df := wall_mesh_df
    domain := (mn, mx)
    center := ⟨(mn.x + mx.x) / 2, (mn.y + mx.y) / 2, (mn.z + mx.z) / 2⟩
    direction := ((wall_mesh_df.head?).map (fun m => m.face_normal)).getD
      Vec3.zero
    area := (wall_mesh_df.map (fun m => m.face_normal_magnitude)).sum / 2 }

/-- The wall-face filter of `_get_building_walls`:
`(seg_class == "wall") & (face_normal_z != 1) & (face_normal_z != -1)`. -/
def wallFaceFilter (m : MeshFace) : Bool :=
  decide (m.seg_class = "wall") && !(decide (m.face_normal.z = 1)) &&
    !(decide (m.face_normal.z = -1))

/-- Membership of all three vertex ids of a face in a component's node set
(the `mask` of `_get_building_walls`). -/
def faceInComp (c : List ℕ) (m : MeshFace) : Bool :=
  decide (m.id_v1 ∈ c ∧ m.id_v2 ∈ c ∧ m.id_v3 ∈ c)

/-- The walls built from one normal-direction group of `_get_building_walls`
(the body of the `groupby` loop). -/
def wallsForKey (wall_df : List MeshFace) (k : Vec3) : List BuildingWall :=
  let group := wall_df.filter (fun m => decide (m.face_normal = k))
  let connected_components := get_connected_meshes_list group
  if connected_components.length = 1 then
    [mkBuildingWall group]
  else
    connected_components.map (fun c => mkBuildingWall (group.filter (faceInComp c)))

/-- `Segmented3DModel._get_building_walls`. -/
def get_building_walls (mesh_df : List MeshFace) : List BuildingWall :=
  let wall_df := mesh_df.filter wallFaceFilter
  (((wall_df.map (fun m => m.face_normal)).dedup).map
    (wallsForKey wall_df)).flatten

/-- Any face of a wall produced for key `k` belongs to `wall_df` and has
face normal `k`. -/
lemma mem_wall_of_key (wall_df : List MeshFace) (k : Vec3) (w : BuildingWall)
    (hw : w ∈ wallsForKey wall_df k) (f : MeshFace) (hf : f ∈ w.mesh_df) :
    f ∈ wall_df ∧ f.face_normal = k := by
  unfold wallsForKey at hw
  by_cases hlen :
      (get_connected_meshes_list
        (wall_df.filter (fun m => decide (m.face_normal = k)))).length = 1
  · rw [if_pos hlen] at hw
    simp only [List.mem_singleton] at hw
    subst hw
    have : f ∈ wall_df.filter (fun m => decide (m.face_normal = k)) := hf
    have h2 := List.mem_filter.mp this
    exact ⟨h2.1, by simpa using h2.2⟩
  · rw [if_neg hlen] at hw
    obtain ⟨c, _, rfl⟩ := List.mem_map.mp hw
    have : f ∈ (wall_df.filter
        (fun m => decide (m.face_normal = k))).filter (faceInComp c) := hf
    have h2 := List.mem_filter.mp (List.mem_of_mem_filter this)
    exact ⟨h2.1, by simpa using h2.2⟩

/-- The walls of one key are pairwise face-disjoint. -/
lemma wallsForKey_pairwise (wall_df : List MeshFace) (k : Vec3) :
    (wallsForKey wall_df k).Pairwise
      (fun w w' => ∀ f, f ∈ w.mesh_df → f ∉ w'.mesh_df) := by
  unfold wallsForKey
  by_cases hlen :
      (get_connected_meshes_list
        (wall_df.filter (fun m => decide (m.face_normal = k)))).length = 1
  · rw [if_pos hlen]
    exact List.pairwise_singleton _ _
  · rw [if_neg hlen]
    rw [List.pairwise_map]
    refine (get_connected_meshes_list_disjoint _).imp ?_
    intro c c' hdisj f hf hf'
    have h1 := (List.mem_filter.mp hf).2
    have h2 := (List.mem_filter.mp hf').2
    simp only [faceInComp, decide_eq_true_eq] at h1 h2
    exact hdisj f.id_v1 h1.1 h2.1

/-- Every face of `wall_df` with normal `k` lands in some wall of key `k`. -/
lemma mem_wallsForKey_of_mem (wall_df : List MeshFace) (k : Vec3)
    (f : MeshFace) (hf : f ∈ wall_df) (hk : f.face_normal = k) :
    ∃ w ∈ wallsForKey wall_df k, f ∈ w.mesh_df := by
  have hgrp : f ∈ wall_df.filter (fun m => decide (m.face_normal = k)) :=
    List.mem_filter.mpr ⟨hf, by simpa using hk⟩
  unfold wallsForKey
  by_cases hlen :
      (get_connected_meshes_list
        (wall_df.filter (fun m => decide (m.face_normal = k)))).length = 1
  · rw [if_pos hlen]
    exact ⟨mkBuildingWall _, List.mem_singleton.mpr rfl, hgrp⟩
  · rw [if_neg hlen]
    obtain ⟨c, hc, h1, h2, h3⟩ := face_vertices_in_component _ f hgrp
    refine ⟨mkBuildingWall ((wall_df.filter
        (fun m => decide (m.face_normal = k))).filter (faceInComp c)),
      List.mem_map.mpr ⟨c, hc, rfl⟩, ?_⟩
    exact List.mem_filter.mpr ⟨hgrp, by simp [faceInComp, h1, h2, h3]⟩

/-- C1: wall partition invariant.  The `BuildingWall`s produced by
`_get_building_walls` have pairwise disjoint face slices (no face appears
in two walls), and a face belongs to some wall exactly when it is a
wall-class face of the mesh whose unit normal is not purely vertical
(`face_normal_z` neither `1` nor `-1`) — so the walls' union together with
the excluded vertical wall faces is exactly the wall-class face set. -/
theorem C1_wall_partition (mesh_df : List MeshFace) :
    ((get_building_walls mesh_df).Pairwise
      (fun w w' => ∀ f, f ∈ w.mesh_df → f ∉ w'.mesh_df)) ∧
    (∀ f, (∃ w ∈ get_building_walls mesh_df, f ∈ w.mesh_df) ↔
      (f ∈ mesh_df ∧ f.seg_class = "wall" ∧
        f.face_normal.z ≠ 1 ∧ f.face_normal.z ≠ -1)) := by
  constructor
  · unfold get_building_walls
    rw [List.pairwise_flatten]
    constructor
    · intro s hs
      obtain ⟨k, _, rfl⟩ := List.mem_map.mp hs
      exact wallsForKey_pairwise _ k
    · rw [List.pairwise_map]
      have hnodup : ((mesh_df.filter wallFaceFilter).map
          (fun m => m.face_normal)).dedup.Nodup := List.nodup_dedup _
      refine hnodup.imp_of_mem ?_
      intro k k' hk hk' hne w hw w' hw' f hf hf'
      have h1 := mem_wall_of_key _ k w hw f hf
      have h2 := mem_wall_of_key _ k' w' hw' f hf'
      exact hne (h1.2 ▸ h2.2 ▸ rfl)
  · intro f
    constructor
    · rintro ⟨w, hw, hf⟩
      unfold get_building_walls at hw
      obtain ⟨s, hs, hws⟩ := List.mem_flatten.mp hw
      obtain ⟨k, _, rfl⟩ := List.mem_map.mp hs
      obtain ⟨hfw, _⟩ := mem_wall_of_key _ k w hws f hf
      have h2 := List.mem_filter.mp hfw
      have h3 := h2.2
      simp only [wallFaceFilter, Bool.and_eq_true, Bool.not_eq_true',
        decide_eq_true_eq, decide_eq_false_iff_not] at h3
      exact ⟨h2.1, h3.1.1, h3.1.2, h3.2⟩
    · rintro ⟨hmem, hclass, hz1, hz2⟩
      have hfw : f ∈ mesh_df.filter wallFaceFilter :=
        List.mem_filter.mpr ⟨hmem, by
          simp only [wallFaceFilter, Bool.and_eq_true, Bool.not_eq_true',
            decide_eq_true_eq, decide_eq_false_iff_not]
          exact ⟨⟨hclass, hz1⟩, hz2⟩⟩
      have hkey : f.face_normal ∈ ((mesh_df.filter wallFaceFilter).map
          (fun m => m.face_normal)).dedup :=
        List.mem_dedup.mpr (List.mem_map.mpr ⟨f, hfw, rfl⟩)
      obtain ⟨w, hwk, hfwk⟩ :=
        mem_wallsForKey_of_mem (mesh_df.filter wallFaceFilter)
          f.face_normal f hfw rfl
      refine ⟨w, ?_, hfwk⟩
      unfold get_building_walls
      exact List.mem_flatten.mpr
        ⟨wallsForKey (mesh_df.filter wallFaceFilter) f.face_normal,
          List.mem_map.mpr ⟨f.face_normal, hkey, rfl⟩, hwk⟩

/-! ## Areas and WWR (`Segmented3DModel.wwr`, `BuildingWall.set_wwr`)

All area quantities are numpy `float64` scalars: `_get_all_wall_area`
returns `np.sum(...)/2`, `_get_all_window_area` a `np.sum` of window
areas, and `BuildingWall.area` a pandas `.sum()/2`.  `windows_area /
wall_area` is therefore a NUMPY float division: dividing by `0.0` does not
raise `ZeroDivisionError` (or anything else) — it emits a
`RuntimeWarning` and yields `inf` (positive numerator), `-inf` (negative
numerator) or `nan` (`0.0 / 0.0`).  The embedding models the result of
such a division with `PyFloat`. -/

/-- The value of a numpy `float64` scalar arising from a division:
a finite rational or one of the IEEE-754 specials. -/
inductive PyFloat where
  | val (q : ℚ)
  | inf
  | ninf
  | nan
deriving DecidableEq, Repr

/-- Numpy `float64` division `a / b` (exact in the finite case). -/
def pyDiv (a b : ℚ) : PyFloat :=
  if b = 0 then
    if a = 0 then PyFloat.nan
    else if 0 < a then PyFloat.inf
    else PyFloat.ninf
  else PyFloat.val (a / b)

/-- `Segmented3DModel._get_all_wall_area`: wall-class faces whose unit
normal has a non-zero `x` or `y` component (excluding top/bottom faces);
half the sum of their normal magnitudes. -/
def get_all_wall_area (mesh_df : List MeshFace) : ℚ :=
  (((mesh_df.filter (fun m => decide (m.seg_class = "wall"))).filter
      (fun m => decide (m.face_normal.x ≠ 0 ∨ m.face_normal.y ≠ 0))).map
    (fun m => m.face_normal_magnitude)).sum / 2

/-- Position lookup in the vertex table `self._points` by vertex id
(`self._points.loc[nodes]`); the zero default stands for the `KeyError` a
malformed id would raise in the source and is never hit on well-formed
models. -/
def lookupPoint (points : List (ℕ × Vec3)) (i : ℕ) : Vec3 :=
  match points with
  | [] => Vec3.zero
  | e :: rest => if i = e.1 then e.2 else lookupPoint rest i

/-- `Segmented3DModel._get_window_area_from_component_graph`: the largest
face of the axis-aligned bounding box of the component's node positions —
`np.max` over the pairwise products of the three bounding-box extents
(`itertools.combinations(measurements, 2)`). -/
def get_window_area_from_component_graph (points : List (ℕ × Vec3))
    (nodes : List ℕ) : ℚ :=
  let locs := nodes.map (lookupPoint points)
  let dx := listMax (locs.map (fun p => p.x)) - listMin (locs.map (fun p => p.x))
  let dy := listMax (locs.map (fun p => p.y)) - listMin (locs.map (fun p => p.y))
  let dz := listMax (locs.map (fun p => p.z)) - listMin (locs.map (fun p => p.z))
  listMax [dx * dy, dx * dz, dy * dz]

/-- `Segmented3DModel._get_all_window_area`: the sum of the window
component areas over `self._window_graphs`. -/
def get_all_window_area (points : List (ℕ × Vec3))
    (mesh_df : List MeshFace) : ℚ :=
  ((get_connected_meshes_list
      (mesh_df.filter (fun m => decide (m.seg_class = "window")))).map
    (get_window_area_from_component_graph points)).sum

/-- `Segmented3DModel.wwr`: total window area divided by total wall area,
as a numpy float division. -/
def model_wwr (points : List (ℕ × Vec3)) (mesh_df : List MeshFace) : PyFloat :=
  pyDiv (get_all_window_area points mesh_df) (get_all_wall_area mesh_df)

/-- `BuildingWall.set_wwr`: the windows area on the wall divided by the
wall's area, as a numpy float division. -/
def BuildingWall.set_wwr (wall : BuildingWall) (windows_area : ℚ) : PyFloat :=
  pyDiv windows_area wall.area

/-- C5 counterexample: a model with one window triangle and no wall faces
has wall area `0`, yet `Segmented3DModel.wwr` does not raise anything — the
numpy float division silently returns `inf`. -/
theorem C5_zero_wall_area_counterexample :
    model_wwr [(0, ⟨0, 0, 0⟩), (1, ⟨1, 0, 0⟩), (2, ⟨0, 1, 0⟩)]
      [⟨0, 1, 2, ⟨0, 0, 0⟩, ⟨1, 0, 0⟩, ⟨0, 1, 0⟩, "window", ⟨0, 0, 1⟩, 1⟩] =
    PyFloat.inf := by
  norm_num [model_wwr, get_all_window_area, get_all_wall_area,
    get_connected_meshes_list, meshEdgeList, addEdge,
    List.partition_eq_filter_filter, get_window_area_from_component_graph,
    lookupPoint, listMin, listMax, pyDiv, min_def, max_def]

/-- C5 (amended): with zero wall area and positive window area the WWR
computation does not raise `ConfigurationError` (or anything else): both
the overall `wwr` and a per-wall `set_wwr` silently return the IEEE
quotient `inf` (and `nan` would result if the window area were also 0). -/
theorem C5_zero_wall_area_amended (points : List (ℕ × Vec3))
    (mesh_df : List MeshFace) (w : BuildingWall) (a : ℚ)
    (hwall : get_all_wall_area mesh_df = 0)
    (hwin : 0 < get_all_window_area points mesh_df)
    (hwa : w.area = 0) (ha : 0 < a) :
    model_wwr points mesh_df = PyFloat.inf ∧
      w.set_wwr a = PyFloat.inf := by
  constructor
  · unfold model_wwr pyDiv
    rw [if_pos hwall, if_neg (ne_of_gt hwin), if_pos hwin]
  · unfold BuildingWall.set_wwr pyDiv
    rw [if_pos hwa, if_neg (ne_of_gt ha), if_pos ha]

theorem C5_zero_wall_area_amended_witness :
    model_wwr [(0, ⟨0, 0, 0⟩), (1, ⟨1, 0, 0⟩), (2, ⟨0, 1, 0⟩)]
      [⟨0, 1, 2, ⟨0, 0, 0⟩, ⟨1, 0, 0⟩, ⟨0, 1, 0⟩, "window", ⟨0, 0, 1⟩, 1⟩] =
      PyFloat.inf ∧
    (mkBuildingWall []).set_wwr 1 = PyFloat.inf :=
  C5_zero_wall_area_amended
    [(0, ⟨0, 0, 0⟩), (1, ⟨1, 0, 0⟩), (2, ⟨0, 1, 0⟩)]
    [⟨0, 1, 2, ⟨0, 0, 0⟩, ⟨1, 0, 0⟩, ⟨0, 1, 0⟩, "window", ⟨0, 0, 1⟩, 1⟩]
    (mkBuildingWall []) 1
    (by norm_num [get_all_wall_area])
    (by norm_num [get_all_window_area, get_connected_meshes_list,
      meshEdgeList, addEdge, List.partition_eq_filter_filter,
      get_window_area_from_component_graph, lookupPoint, listMin, listMax,
      min_def, max_def])
    (by norm_num [mkBuildingWall])
    (by norm_num)

/-! ## `Segmented3DModel._get_windows_on_wall`

Per wall, the window faces' edge table is built (the `(v1, v2)` rows, then
the `(v2, v3)` rows, then the `(v3, v1)` rows, each with both endpoint
positions), a probe plane is constructed from the wall's max corner, its
center, and the center shifted by `cross(max_corner - center, direction)`,
and `find_if_line_and_plane_intersect` flags the edges on or crossing the
plane within the wall's domain.  `wall_nodes` is the set of endpoint ids of
flagged edges, and a window component is returned iff its node set meets
`wall_nodes`.  The query runs independently per wall and nothing prevents a
component from being returned for several walls. -/

/-- The window edge table `windows_mesh_edges`: per face its `(v1, v2)`,
`(v2, v3)` and `(v3, v1)` edges, as (id, position) pairs of endpoints. -/
def windowMeshEdges (windows_mesh_df : List MeshFace) :
    List ((ℕ × Vec3) × (ℕ × Vec3)) :=
  windows_mesh_df.map (fun m => ((m.id_v1, m.p_v1), (m.id_v2, m.p_v2))) ++
    windows_mesh_df.map (fun m => ((m.id_v2, m.p_v2), (m.id_v3, m.p_v3))) ++
    windows_mesh_df.map (fun m => ((m.id_v3, m.p_v3), (m.id_v1, m.p_v1)))

/-- `Segmented3DModel._get_windows_on_wall`; `window_graphs` is
`self._window_graphs`, the connected components of the window faces. -/
def get_windows_on_wall (mesh_df : List MeshFace)
    (window_graphs : List (List ℕ)) (wall : BuildingWall) :
    List (List ℕ) :=
  let windows_mesh_edges := windowMeshEdges
      (mesh_df.filter (fun m => decide (m.seg_class = "window")))
  let plane_vector_1 := wall.domain.2 - wall.center
  let plane_vector_2 := Vec3.cross plane_vector_1 wall.direction
  let plane_point_1 := wall.domain.2
  let plane_point_2 := wall.center
  let plane_point_3 := wall.center + plane_vector_2
  let intersecting_edges := find_if_line_and_plane_intersect
      (windows_mesh_edges.map (fun e => e.1.2))
      (windows_mesh_edges.map (fun e => e.2.2))
      (plane_point_1, plane_point_2, plane_point_3) wall.domain
  let flagged := ((windows_mesh_edges.zip intersecting_edges).filter
      (fun p => p.2)).map (fun p => p.1)
  let wall_nodes := flagged.map (fun e => e.1.1) ++
    flagged.map (fun e => e.2.1)
  window_graphs.filter (fun g => decide (∃ n ∈ g, n ∈ wall_nodes))

/-- `Segmented3DModel._set_wwr_per_wall`: for each wall, sum the areas of
the window components `_get_windows_on_wall` returns for it and divide by
the wall's area (`BuildingWall.set_wwr`).  The source stores each result in
`wall.wwr`; the embedding returns the list of stored values. -/
def set_wwr_per_wall (points : List (ℕ × Vec3)) (mesh_df : List MeshFace)
    (window_graphs : List (List ℕ)) (walls : List BuildingWall) :
    List PyFloat :=
  walls.map (fun wall =>
    wall.set_wwr (((get_windows_on_wall mesh_df window_graphs wall).map
      (get_window_area_from_component_graph points)).sum))

/-- A corner model for claim C10: two perpendicular square walls meeting
at the edge `x = y = 0` and one window triangle with an edge on that
corner line, lying in both walls' probe planes. -/
def c10Mesh : List MeshFace :=
  [⟨0, 1, 2, ⟨0, 0, 0⟩, ⟨0, 2, 0⟩, ⟨0, 2, 2⟩, "wall", ⟨1, 0, 0⟩, 4⟩,
   ⟨0, 2, 3, ⟨0, 0, 0⟩, ⟨0, 2, 2⟩, ⟨0, 0, 2⟩, "wall", ⟨1, 0, 0⟩, 4⟩,
   ⟨4, 5, 6, ⟨0, 0, 0⟩, ⟨2, 0, 0⟩, ⟨2, 0, 2⟩, "wall", ⟨0, 1, 0⟩, 4⟩,
   ⟨4, 6, 7, ⟨0, 0, 0⟩, ⟨2, 0, 2⟩, ⟨0, 0, 2⟩, "wall", ⟨0, 1, 0⟩, 4⟩,
   ⟨8, 9, 10, ⟨0, 0, 1⟩, ⟨0, 0, 3/2⟩, ⟨1/2, 0, 1⟩, "window", ⟨0, 1, 0⟩,
     1/4⟩]

/-- The vertex table of `c10Mesh`'s window nodes. -/
def c10Points : List (ℕ × Vec3) :=
  [(8, ⟨0, 0, 1⟩), (9, ⟨0, 0, 3/2⟩), (10, ⟨1/2, 0, 1⟩)]

/-- The single window component of `c10Mesh` as computed by
`get_connected_meshes_list` (node multiplicities are irrelevant; only
membership is used). -/
def c10WindowGraph : List ℕ := [10, 8, 9, 10, 8, 9]

/-- The wall of `c10Mesh` in the plane `x = 0`, as built by
`_get_building_walls`. -/
def c10WallA : BuildingWall :=
  ⟨[⟨0, 1, 2, ⟨0, 0, 0⟩, ⟨0, 2, 0⟩, ⟨0, 2, 2⟩, "wall", ⟨1, 0, 0⟩, 4⟩,
    ⟨0, 2, 3, ⟨0, 0, 0⟩, ⟨0, 2, 2⟩, ⟨0, 0, 2⟩, "wall", ⟨1, 0, 0⟩, 4⟩],
   (⟨0, 0, 0⟩, ⟨0, 2, 2⟩), ⟨0, 1, 1⟩, ⟨1, 0, 0⟩, 4⟩

/-- The wall of `c10Mesh` in the plane `y = 0`. -/
def c10WallB : BuildingWall :=
  ⟨[⟨4, 5, 6, ⟨0, 0, 0⟩, ⟨2, 0, 0⟩, ⟨2, 0, 2⟩, "wall", ⟨0, 1, 0⟩, 4⟩,
    ⟨4, 6, 7, ⟨0, 0, 0⟩, ⟨2, 0, 2⟩, ⟨0, 0, 2⟩, "wall", ⟨0, 1, 0⟩, 4⟩],
   (⟨0, 0, 0⟩, ⟨2, 0, 2⟩), ⟨1, 0, 1⟩, ⟨0, 1, 0⟩, 4⟩

set_option maxHeartbeats 6400000 in
/-- C10: window-to-wall assignment is not exclusive.  On `c10Mesh` the
partitioner returns two walls with distinct directions, there is a single
window component, `_get_windows_on_wall` returns that same component for
BOTH walls, and `_set_wwr_per_wall` therefore counts its bounding-box area
(`1/4`) in both walls' WWR (`(1/4) / 4 = 1/16` each); no invariant forbids
a window from being counted on multiple walls. -/
theorem C10_window_on_two_walls :
    (get_building_walls c10Mesh).length = 2 ∧
    ((get_building_walls c10Mesh).map (fun w => w.direction)).Nodup ∧
    get_connected_meshes_list
        (c10Mesh.filter (fun m => decide (m.seg_class = "window"))) =
      [c10WindowGraph] ∧
    (∀ w ∈ get_building_walls c10Mesh,
      c10WindowGraph ∈ get_windows_on_wall c10Mesh [c10WindowGraph] w) ∧
    set_wwr_per_wall c10Points c10Mesh [c10WindowGraph]
        (get_building_walls c10Mesh) =
      [PyFloat.val (1 / 16), PyFloat.val (1 / 16)] := by
  have hwalls : get_building_walls c10Mesh = [c10WallA, c10WallB] := by
    simp [get_building_walls, c10Mesh, wallFaceFilter, wallsForKey,
      get_connected_meshes_list, meshEdgeList, addEdge,
      List.partition_eq_filter_filter, faceInComp, mkBuildingWall,
      gatheredVertices, listMin, listMax, min_def, max_def, c10WallA,
      c10WallB]
  have hwin : get_connected_meshes_list
      (c10Mesh.filter (fun m => decide (m.seg_class = "window"))) =
      [c10WindowGraph] := by
    simp [get_connected_meshes_list, c10Mesh, meshEdgeList, addEdge,
      List.partition_eq_filter_filter, c10WindowGraph]
  have hA : get_windows_on_wall c10Mesh [c10WindowGraph] c10WallA =
      [c10WindowGraph] := by
    simp [get_windows_on_wall, c10Mesh, c10WallA, windowMeshEdges,
      find_if_line_and_plane_intersect, planeNormal, planeD, vectorOnPlane,
      inDomain, Vec3.cross, Vec3.dot, Vec3.sub_def, Vec3.add_def,
      c10WindowGraph]
    norm_num
  have hB : get_windows_on_wall c10Mesh [c10WindowGraph] c10WallB =
      [c10WindowGraph] := by
    simp [get_windows_on_wall, c10Mesh, c10WallB, windowMeshEdges,
      find_if_line_and_plane_intersect, planeNormal, planeD, vectorOnPlane,
      inDomain, Vec3.cross, Vec3.dot, Vec3.sub_def, Vec3.add_def,
      c10WindowGraph]
    norm_num
  have harea : get_window_area_from_component_graph c10Points
      c10WindowGraph = 1 / 4 := by
    norm_num [get_window_area_from_component_graph, c10Points,
      c10WindowGraph, lookupPoint, listMin, listMax, min_def, max_def]
  refine ⟨by rw [hwalls]; rfl, by rw [hwalls]; norm_num [c10WallA, c10WallB],
    hwin, ?_, ?_⟩
  · rw [hwalls]
    intro w hw
    rcases List.mem_cons.mp hw with rfl | hw1
    · rw [hA]
      exact List.mem_singleton.mpr rfl
    rcases List.mem_cons.mp hw1 with rfl | hw2
    · rw [hB]
      exact List.mem_singleton.mpr rfl
    simp at hw2
  · rw [hwalls]
    unfold set_wwr_per_wall
    rw [List.map_cons, List.map_cons, List.map_nil, hA, hB]
    rw [List.map_cons, List.map_nil, harea]
    norm_num [BuildingWall.set_wwr, pyDiv, c10WallA, c10WallB]
